import Mathlib

/-!
Verification of the submission / evaluation / leaderboard scoring subsystem
of the SynapEvents backend.

The JavaScript source is embedded shallowly:

* JS numbers that participate in exact arithmetic (scores, averages) are
  modelled as rationals (`ℚ`); times (`Date` values) as integers
  (milliseconds since the epoch).
* JS values whose dynamic type matters (the HTTP query `offset`, which may
  be a string or a number) are modelled by `JsVal` together with the JS `+`
  operator (`jsAdd`), which concatenates as soon as one operand is a string.
* JSONB objects (`criteriaScores`) are modelled as association lists; each
  stored value is represented by its `parseFloat` image (`none` = `NaN`).
* Database tables are lists of rows; `paranoid` soft deletion is a `deleted`
  flag on each row, and the default scopes filter it out.
* Fallible operations return `Except`.
-/

namespace SynapEvents

/-- Decidable equality for `Except`, so that concrete runs of the fallible
operations can be checked by evaluation. -/
instance {ε α : Type} [DecidableEq ε] [DecidableEq α] : DecidableEq (Except ε α) :=
  fun x y =>
    match x, y with
    | .error a, .error b =>
      if h : a = b then isTrue (by rw [h]) else isFalse (by intro hh; cases hh; exact h rfl)
    | .error _, .ok _ => isFalse (by intro hh; cases hh)
    | .ok _, .error _ => isFalse (by intro hh; cases hh)
    | .ok a, .ok b =>
      if h : a = b then isTrue (by rw [h]) else isFalse (by intro hh; cases hh; exact h rfl)

/-- A JavaScript value as far as the leaderboard rank computation is
concerned: either a number (the ranks are integers) or a string (an HTTP
query parameter). -/
inductive JsVal where
  | num (n : Int)
  | str (s : String)
deriving DecidableEq, Repr

/-- JS `ToString` on the values of `JsVal` (integer numbers print as usual). -/
def jsValToString : JsVal → String
  | .num n => toString n
  | .str s => s

/-- The JS `+` operator on `JsVal`: numeric addition on two numbers, string
concatenation as soon as one operand is a string. -/
def jsAdd : JsVal → JsVal → JsVal
  | .num a, .num b => .num (a + b)
  | a, b => .str (jsValToString a ++ jsValToString b)

/-- Submission status enum from `submission.model.js`
(`draft | submitted | under_review | accepted | rejected`). -/
inductive SubStatus where
  | draft
  | submitted
  | underReview
  | accepted
  | rejected
deriving DecidableEq, Repr

/-- Evaluation status enum from the Evaluation model (`draft | submitted`). -/
inductive EvalStatus where
  | draft
  | submitted
deriving DecidableEq, Repr

/-- A JSONB `criteriaScores` object: keys are criterion ids, each stored
value is represented by its `parseFloat` image (`none` models `NaN`,
i.e. a non-numeric value). -/
abbrev CriteriaScores := List (String × Option ℚ)

/-- One entry of an Event's `judgingCriteria` list: `{id, name, maxScore}`. -/
structure Criterion where
  id : String
  name : String
  maxScore : ℚ
deriving DecidableEq, Repr

/-- A persisted row of the Evaluation table (the attributes the scoring
subsystem reads).  `score` has `allowNull: false` in the model, hence `ℚ`
rather than `Option ℚ`; `round` defaults to 1; `criteriaScores` defaults to
the empty object; `deleted` models the `paranoid` soft-delete flag. -/
structure EvalRow where
  submissionId : Nat
  judgeId : Nat
  round : Nat
  score : ℚ
  feedback : Option String
  criteriaScores : CriteriaScores
  status : EvalStatus
  deleted : Bool
deriving DecidableEq, Repr

/-- A persisted row of the Submission table (the attributes the scoring
subsystem reads). -/
structure SubmissionRow where
  id : Nat
  eventId : Nat
  teamId : Nat
  submittedById : Nat
  title : String
  status : SubStatus
  averageScore : Option ℚ
  totalEvaluations : Nat
  deleted : Bool
deriving DecidableEq, Repr

/-- Embeds `submission.getEvaluations()`: all rows of the Evaluation table that
belong to the submission.  The `paranoid` default scope drops soft-deleted
rows; there is no filter on `round` or `judgeId`. -/
def submissionEvaluations (evals : List EvalRow) (sid : Nat) : List EvalRow :=
  evals.filter (fun e => e.submissionId == sid && !e.deleted)

/-- JS `(x || 0)` on a number: `0` stays `0`, every other number is itself. -/
def jsOr0 (q : ℚ) : ℚ := if q == 0 then 0 else q

/-- Embeds `Submission.prototype.calculateScores`, the pure aggregation step: given
the submission's evaluations it produces the new
`(averageScore, totalEvaluations)` pair.  Mirrors
`submission.model.js` lines 135-152: zero evaluations give `(null, 0)`,
otherwise the average is `reduce((sum, e) => sum + (e.score || 0), 0)`
divided by the number of evaluations. -/
def calculateScores (evals : List EvalRow) : Option ℚ × Nat :=
  if evals.length == 0 then (none, 0)
  else
    let totalScore := evals.foldl (fun sum e => sum + jsOr0 e.score) 0
    (some (totalScore / evals.length), evals.length)

/-- Recalculate a submission's aggregate fields from the Evaluation table:
fetch the submission's non-deleted evaluations (all rounds, all judges) and
aggregate them. -/
def recalculateScores (evals : List EvalRow) (sid : Nat) : Option ℚ × Nat :=
  calculateScores (submissionEvaluations evals sid)

/-- One row of the leaderboard query result: the selected attributes plus
the two SQL aggregates `COUNT(evaluations.id)` and `AVG(evaluations.score)`
(the latter is `NULL` when the LEFT JOIN matches no evaluation). -/
structure LeaderboardEntry where
  id : Nat
  title : String
  averageScore : Option ℚ
  evaluationCount : Nat
deriving DecidableEq, Repr

/-- The per-submission aggregation done by the leaderboard query: LEFT JOIN
to the (non-deleted) evaluations of the submission, `COUNT` and `AVG` of
their scores grouped by submission. -/
def leaderboardAggregate (evals : List EvalRow) (s : SubmissionRow) : LeaderboardEntry :=
  let es := submissionEvaluations evals s.id
  { id := s.id
    title := s.title
    averageScore := if es.isEmpty then none else some ((es.map EvalRow.score).sum / es.length)
    evaluationCount := es.length }

/-- Embeds `ORDER BY averageScore DESC NULLS LAST, evaluationCount DESC` as a
relation on the two sort keys: `lbKeyLE (a, m) (b, n)` holds when a row with
aggregate `(a, m)` may be placed no later than a row with `(b, n)`. -/
def lbKeyLE : Option ℚ × Nat → Option ℚ × Nat → Prop
  | (some a, m), (some b, n) => b < a ∨ (a = b ∧ n ≤ m)
  | (some _, _), (none, _) => True
  | (none, _), (some _, _) => False
  | (none, m), (none, n) => n ≤ m

instance : DecidableRel lbKeyLE := fun p q =>
  match p, q with
  | (some a, m), (some b, n) => inferInstanceAs (Decidable (b < a ∨ (a = b ∧ n ≤ m)))
  | (some _, _), (none, _) => inferInstanceAs (Decidable True)
  | (none, _), (some _, _) => inferInstanceAs (Decidable False)
  | (none, _), (none, _) => inferInstanceAs (Decidable (_ ≤ _))

/-- The leaderboard ordering on result rows. -/
def LbBefore (x y : LeaderboardEntry) : Prop :=
  lbKeyLE (x.averageScore, x.evaluationCount) (y.averageScore, y.evaluationCount)

instance : DecidableRel LbBefore := fun _ _ =>
  inferInstanceAs (Decidable (lbKeyLE _ _))

instance : IsTotal LeaderboardEntry LbBefore where
  total x y := by
    obtain ⟨_, _, xa, xc⟩ := x
    obtain ⟨_, _, ya, yc⟩ := y
    rcases xa with _ | a <;> rcases ya with _ | b <;> simp [LbBefore, lbKeyLE]
    · exact Nat.le_total yc xc
    · rcases lt_trichotomy a b with h | h | h
      · exact Or.inr (Or.inl h)
      · rcases Nat.le_total yc xc with hn | hn
        · exact Or.inl (Or.inr ⟨h, hn⟩)
        · exact Or.inr (Or.inr ⟨h.symm, hn⟩)
      · exact Or.inl (Or.inl h)

instance : IsTrans LeaderboardEntry LbBefore where
  trans x y z hxy hyz := by
    obtain ⟨_, _, xa, xc⟩ := x
    obtain ⟨_, _, ya, yc⟩ := y
    obtain ⟨_, _, za, zc⟩ := z
    rcases xa with _ | a <;> rcases ya with _ | b <;> rcases za with _ | c <;>
      simp_all [LbBefore, lbKeyLE]
    · exact le_trans hyz hxy
    · rcases hxy with h1 | ⟨h1, h1n⟩ <;> rcases hyz with h2 | ⟨h2, h2n⟩
      · exact Or.inl (lt_trans h2 h1)
      · exact Or.inl (h2 ▸ h1)
      · exact Or.inl (h1 ▸ h2)
      · exact Or.inr ⟨h1.trans h2, le_trans h2n h1n⟩

/-- Embeds `getLeaderboard`, the query part (`submission.controller.js` lines
552-591): filter the event's non-deleted submissions with status
`submitted`, aggregate each with its evaluations, order by
`averageScore DESC NULLS LAST, evaluationCount DESC`, then apply
`OFFSET`/`LIMIT`. -/
def getLeaderboard (subs : List SubmissionRow) (evals : List EvalRow)
    (eventId limit offset : Nat) : List LeaderboardEntry :=
  let qualifying := subs.filter
    (fun s => s.eventId == eventId && s.status == SubStatus.submitted && !s.deleted)
  let entries := qualifying.map (leaderboardAggregate evals)
  ((entries.insertionSort LbBefore).drop offset).take limit

/-- Embeds `rank: offset + index + 1` from the leaderboard controller: `offset` is
the raw request-query value (`JsVal`), `index` the position in the returned
page, and `+` is the JS operator. -/
def leaderboardRank (offset : JsVal) (index : Nat) : JsVal :=
  jsAdd (jsAdd offset (JsVal.num index)) (JsVal.num 1)

/-- Embeds `submissions.map((submission, index) => ({ ...submission, rank: offset + index + 1 }))`:
pair each row of the returned page with its computed rank. -/
def addRanks (offset : JsVal) (page : List LeaderboardEntry) :
    List (LeaderboardEntry × JsVal) :=
  page.enum.map (fun p => (p.2, leaderboardRank offset p.1))

/-- The values record passed to `Evaluation.upsert` by `submitEvaluation`
(`submission.controller.js` lines 491-504).  The controller forwards the
request body's `criteria` field, but the Evaluation model has no `criteria`
attribute (its attribute is named `criteriaScores`), so the ORM silently
drops it; `round` is not part of the record at all. -/
structure EvalUpsertValues where
  submissionId : Nat
  judgeId : Nat
  score : ℚ
  feedback : Option String
  criteria : CriteriaScores
  status : EvalStatus
deriving DecidableEq, Repr

/-- Apply the upsert values to an existing row (the `ON CONFLICT ... DO
UPDATE` half): only attributes that exist on the model are written, so
`criteriaScores` and `round` keep their previous values. -/
def applyUpsertValues (v : EvalUpsertValues) (r : EvalRow) : EvalRow :=
  { r with
    submissionId := v.submissionId
    judgeId := v.judgeId
    score := v.score
    feedback := v.feedback
    status := v.status }

/-- Build a fresh row from the upsert values (the INSERT half): `round`
defaults to 1 and `criteriaScores` to the empty object. -/
def insertUpsertValues (v : EvalUpsertValues) : EvalRow :=
  { submissionId := v.submissionId
    judgeId := v.judgeId
    round := 1
    score := v.score
    feedback := v.feedback
    criteriaScores := []
    status := v.status
    deleted := false }

/-- The conflict target of the upsert: `conflictFields: ['submissionId',
'judgeId']` — `round` is not part of the conflict key. -/
def matchesConflict (sid jid : Nat) (r : EvalRow) : Bool :=
  r.submissionId == sid && r.judgeId == jid

/-- Embeds `Evaluation.upsert(values, { conflictFields: ['submissionId', 'judgeId'] })`:
update the conflicting row(s) if one exists, otherwise insert a fresh row.
Returns the new table and the `created` flag (`true` on insert). -/
def upsertEvaluation (table : List EvalRow) (v : EvalUpsertValues) :
    List EvalRow × Bool :=
  if table.any (matchesConflict v.submissionId v.judgeId) then
    (table.map (fun r =>
      if matchesConflict v.submissionId v.judgeId r then applyUpsertValues v r else r),
     false)
  else
    (table ++ [insertUpsertValues v], true)

/-- The write performed by `submitEvaluation` once the permission and
judging-window checks have passed: an upsert of
`{submissionId, judgeId, score, feedback, criteria, status: 'submitted'}`. -/
def submitEvaluationWrite (table : List EvalRow) (sid jid : Nat) (score : ℚ)
    (feedback : Option String) (criteria : CriteriaScores) : List EvalRow × Bool :=
  upsertEvaluation table
    { submissionId := sid
      judgeId := jid
      score := score
      feedback := feedback
      criteria := criteria
      status := EvalStatus.submitted }

/-- Fold a sequence of `submitEvaluation` calls (each call is a
`(score, feedback, criteria)` payload) by the same judge for the same
submission over a table. -/
def submitEvaluationCalls (table : List EvalRow) (sid jid : Nat)
    (calls : List (ℚ × Option String × CriteriaScores)) : List EvalRow :=
  calls.foldl (fun t c => (submitEvaluationWrite t sid jid c.1 c.2.1 c.2.2).1) table

/-- The rows of a table that belong to judge `jid` and submission `sid`. -/
def judgeRows (table : List EvalRow) (sid jid : Nat) : List EvalRow :=
  table.filter (matchesConflict sid jid)

/-- In-memory state of an Evaluation instance as seen by
`Evaluation.prototype.submit`: `score` may still be unset (`none` models
`undefined`/`null`). -/
structure EvalInstance where
  score : Option ℚ
  criteriaScores : CriteriaScores
  status : EvalStatus
deriving DecidableEq, Repr

/-- The errors thrown by `Evaluation.prototype.submit`:
`missingCriterion name` is `Score for criterion "name" is required`,
`invalidCriterion name` is `Invalid score for criterion "name"`. -/
inductive SubmitError where
  | alreadySubmitted
  | missingCriterion (name : String)
  | invalidCriterion (name : String)
deriving DecidableEq, Repr

/-- The validation loop of `Evaluation.prototype.submit`: for each criterion
of the event, the id must be a key of `criteriaScores`
(`criterion.id in criteriaScores`), and `parseFloat` of the stored value
must be a number in `[0, criterion.maxScore]`; the first offending
criterion aborts with its error. -/
def validateCriteria (criteria : List Criterion) (cs : CriteriaScores) :
    Except SubmitError Unit :=
  match criteria with
  | [] => .ok ()
  | c :: rest =>
    match cs.lookup c.id with
    | none => .error (.missingCriterion c.name)
    | some v =>
      match v with
      | none => .error (.invalidCriterion c.name)
      | some q =>
        if q < 0 ∨ q > c.maxScore then .error (.invalidCriterion c.name)
        else validateCriteria rest cs

/-- JS truth value of `!this.score` for a score that is a number or
`null`/`undefined`: `none` and `0` are falsy, every other number truthy. -/
def scoreFalsy : Option ℚ → Bool
  | none => true
  | some q => q == 0

/-- Embeds `Object.values(criteriaScores).reduce((sum, score) => sum + parseFloat(score), 0)`:
the raw sum of all stored values; a non-numeric value (`parseFloat` = `NaN`,
modelled `none`) poisons the sum. -/
def sumCriteriaScores (cs : CriteriaScores) : Option ℚ :=
  cs.foldl
    (fun acc kv =>
      match acc, kv.2 with
      | some a, some v => some (a + v)
      | _, _ => none)
    (some 0)

/-- Embeds `Evaluation.prototype.submit` (`part_002` lines 93-133): refuse if
already submitted, validate the criteria scores against the event's
`judgingCriteria`, replace a falsy `score` by the raw sum of the
`criteriaScores` values, and mark the evaluation submitted. -/
def evaluationSubmit (judgingCriteria : List Criterion) (e : EvalInstance) :
    Except SubmitError EvalInstance :=
  if e.status == EvalStatus.submitted then .error .alreadySubmitted
  else
    match validateCriteria judgingCriteria e.criteriaScores with
    | .error err => .error err
    | .ok () =>
      let newScore :=
        if scoreFalsy e.score then sumCriteriaScores e.criteriaScores else e.score
      .ok { e with score := newScore, status := EvalStatus.submitted }

/-- A row of the Event table (the attributes `createSubmission` and
`isSubmissionOpen` read).  Dates are epoch milliseconds;
`submissionDeadline` has `allowNull: true`. -/
structure EventRow where
  id : Nat
  organizerId : Nat
  startDate : Int
  endDate : Int
  submissionDeadline : Option Int
  judgingCriteria : List Criterion
  deleted : Bool
deriving DecidableEq, Repr

/-- Embeds `Event.prototype.isSubmissionOpen` (`event.model.js` lines 210-214):
`if (!this.submissionDeadline) return false;` then
`now <= submissionDeadline && now <= endDate`. -/
def isSubmissionOpen (e : EventRow) (now : Int) : Bool :=
  match e.submissionDeadline with
  | none => false
  | some d => decide (now ≤ d) && decide (now ≤ e.endDate)

/-- TeamMember status enum (`pending | accepted | rejected | left`). -/
inductive MemberStatus where
  | pending
  | accepted
  | rejected
  | leftTeam
deriving DecidableEq, Repr

/-- A row of the Team table (the attributes `createSubmission` reads). -/
structure TeamRow where
  id : Nat
  eventId : Nat
deriving DecidableEq, Repr

/-- A row of the TeamMember join table. -/
structure TeamMemberRow where
  teamId : Nat
  userId : Nat
  status : MemberStatus
deriving DecidableEq, Repr

/-- The slice of the entity store that `createSubmission` touches. -/
structure Store where
  events : List EventRow
  teams : List TeamRow
  teamMembers : List TeamMemberRow
  submissions : List SubmissionRow
deriving DecidableEq, Repr

/-- The request body of `createSubmission` as far as the lifecycle logic is
concerned.  A client may put a `status` field in the body, but the
controller never destructures it, so it is ignored. -/
structure SubmissionPayload where
  title : String
  description : String
  status : Option SubStatus
deriving DecidableEq, Repr

/-- The early-return failures of `createSubmission`:
`eventClosed` is the 400 `Event not found or submissions are closed`,
`notTeamMember` the 403 `Team not found or you are not a member`, and
`alreadySubmitted` the 400 `Your team has already submitted for this event`
(the rejection the specification's taxonomy calls `ConflictError`). -/
inductive CreateError where
  | eventClosed
  | notTeamMember
  | alreadySubmitted
deriving DecidableEq, Repr

/-- Embeds `Event.findByPk` under the paranoid default scope. -/
def findEvent (st : Store) (eventId : Nat) : Option EventRow :=
  st.events.find? (fun e => e.id == eventId && !e.deleted)

/-- The team lookup of `createSubmission`: `Team.findByPk(teamId)` with a
required include on a TeamMember row for the caller with status
`accepted` — the result is non-null iff the team exists and the caller is
an accepted member. -/
def teamWithMember (st : Store) (teamId userId : Nat) : Bool :=
  st.teams.any (fun t => t.id == teamId) &&
    st.teamMembers.any (fun m =>
      m.teamId == teamId && m.userId == userId && m.status == MemberStatus.accepted)

/-- The duplicate check of `createSubmission`: a non-deleted Submission for
`(teamId, eventId)` whose status is not `draft`. -/
def hasNonDraftSubmission (subs : List SubmissionRow) (teamId eventId : Nat) : Bool :=
  subs.any (fun s =>
    s.teamId == teamId && s.eventId == eventId &&
      !(s.status == SubStatus.draft) && !s.deleted)

/-- The number of non-deleted non-draft Submission rows for
`(teamId, eventId)`. -/
def nonDraftCount (subs : List SubmissionRow) (teamId eventId : Nat) : Nat :=
  (subs.filter (fun s =>
    s.teamId == teamId && s.eventId == eventId &&
      !(s.status == SubStatus.draft) && !s.deleted)).length

/-- The `Submission.beforeCreate` hook (`submission.model.js` lines
117-132): when the row being created has status `draft` and the team has no
prior submission (any status, soft-deleted excluded) for the event, the
status is forced to `submitted`. -/
def submissionBeforeCreate (subs : List SubmissionRow) (s : SubmissionRow) :
    SubmissionRow :=
  if s.status == SubStatus.draft then
    if (subs.filter (fun r =>
        r.teamId == s.teamId && r.eventId == s.eventId && !r.deleted)).length == 0
    then { s with status := SubStatus.submitted }
    else s
  else s

/-- Embeds `createSubmission` (`submission.controller.js` lines 93-182), state-level
semantics: look up the event and check `isSubmissionOpen()`, check that the
caller is an accepted member of the team, reject if a non-draft submission
already exists for `(teamId, eventId)`, then create the row with
`status: 'submitted'` (running the `beforeCreate` hook).  The payload's
`status` field is never read.  `newId` stands for the generated UUID. -/
def createSubmission (st : Store) (userId eventId teamId : Nat)
    (payload : SubmissionPayload) (now : Int) (newId : Nat) :
    Except CreateError (Store × SubmissionRow) :=
  match findEvent st eventId with
  | none => .error .eventClosed
  | some ev =>
    if !isSubmissionOpen ev now then .error .eventClosed
    else if !teamWithMember st teamId userId then .error .notTeamMember
    else if hasNonDraftSubmission st.submissions teamId eventId then
      .error .alreadySubmitted
    else
      let row : SubmissionRow :=
        { id := newId
          eventId := eventId
          teamId := teamId
          submittedById := userId
          title := payload.title
          status := SubStatus.submitted
          averageScore := none
          totalEvaluations := 0
          deleted := false }
      let created := submissionBeforeCreate st.submissions row
      .ok ({ st with submissions := st.submissions ++ [created] }, created)

/-- The store after a `createSubmission` attempt: unchanged when the request
was rejected. -/
def createSubmissionStore (st : Store) (userId eventId teamId : Nat)
    (payload : SubmissionPayload) (now : Int) (newId : Nat) : Store :=
  match createSubmission st userId eventId teamId payload now newId with
  | .ok (st', _) => st'
  | .error _ => st

/-- The status of the row created by a successful `createSubmission`
attempt. -/
def createdStatus (st : Store) (userId eventId teamId : Nat)
    (payload : SubmissionPayload) (now : Int) (newId : Nat) : Option SubStatus :=
  match createSubmission st userId eventId teamId payload now newId with
  | .ok (_, row) => some row.status
  | .error _ => none

/-! ### Concrete sample data used by the witnesses and counterexamples -/

/-- An Evaluation table with two non-deleted evaluations of submission 1 (by
different judges in different rounds), one evaluation of another submission,
and one soft-deleted evaluation of submission 1. -/
def evalsC1 : List EvalRow :=
  [ ⟨1, 10, 1, 80, none, [], .submitted, false⟩,
    ⟨1, 11, 2, 90, none, [], .submitted, false⟩,
    ⟨2, 10, 1, 50, none, [], .submitted, false⟩,
    ⟨1, 12, 1, 70, none, [], .submitted, true⟩ ]

/-- Two `submitEvaluation` payloads `(score, feedback, criteria)` by the
same judge for the same submission. -/
def callsC2 : List (ℚ × Option String × CriteriaScores) :=
  [ (80, some "first", [("c1", some 3)]),
    (90, some "second", []) ]

/-- Submissions A, B, C, D of event 7 for the leaderboard example. -/
def subsC3 : List SubmissionRow :=
  [ ⟨1, 7, 1, 1, "A", .submitted, none, 0, false⟩,
    ⟨2, 7, 2, 2, "B", .submitted, none, 0, false⟩,
    ⟨3, 7, 3, 3, "C", .submitted, none, 0, false⟩,
    ⟨4, 7, 4, 4, "D", .submitted, none, 0, false⟩ ]

/-- Evaluations giving A(avg 90, n 2), B(avg 90, n 5), C(null, 0),
D(avg 75, n 1). -/
def evalsC3 : List EvalRow :=
  [ ⟨1, 1, 1, 90, none, [], .submitted, false⟩,
    ⟨1, 2, 1, 90, none, [], .submitted, false⟩,
    ⟨2, 1, 1, 90, none, [], .submitted, false⟩,
    ⟨2, 2, 1, 90, none, [], .submitted, false⟩,
    ⟨2, 3, 1, 90, none, [], .submitted, false⟩,
    ⟨2, 4, 1, 90, none, [], .submitted, false⟩,
    ⟨2, 5, 1, 90, none, [], .submitted, false⟩,
    ⟨4, 1, 1, 75, none, [], .submitted, false⟩ ]

/-- The leaderboard row of submission B in the example. -/
def entryB : LeaderboardEntry := ⟨2, "B", some 90, 5⟩

/-- A two-row leaderboard page. -/
def pageC4 : List LeaderboardEntry :=
  [ ⟨1, "A", some 90, 2⟩, ⟨2, "B", some 80, 1⟩ ]

/-- An event whose `judgingCriteria` is a single criterion of maxScore 10. -/
def critC5 : List Criterion := [⟨"c1", "c1", 10⟩]

/-- An evaluation instance whose score for criterion c1 is 11 (out of a
maximum of 10). -/
def eC5 : EvalInstance := ⟨none, [("c1", some 11)], .draft⟩

/-- Two criteria with maxScore 10 each. -/
def critC6 : List Criterion := [⟨"c1", "Criterion 1", 10⟩, ⟨"c2", "Criterion 2", 10⟩]

/-- Criteria scores 4 and 7 (raw sum 11, above the per-criterion bound). -/
def csC6 : CriteriaScores := [("c1", some 4), ("c2", some 7)]

/-- An evaluation with no explicit score. -/
def eC6 : EvalInstance := ⟨none, csC6, .draft⟩

/-- A single criterion of maxScore 10. -/
def critC10 : List Criterion := [⟨"c1", "c1", 10⟩]

/-- A criteria-scores object with a single value 5. -/
def csC10 : CriteriaScores := [("c1", some 5)]

/-- An evaluation with an explicit score of 0. -/
def eC10 : EvalInstance := ⟨some 0, csC10, .draft⟩

/-- An event (id 7) whose submission window is open at time 100. -/
def eventC7 : EventRow := ⟨7, 99, 0, 1000, some 500, [], false⟩

/-- A store where team 3 of event 7 already holds a non-draft submission and
user 5 is an accepted member of team 3. -/
def stC7 : Store :=
  ⟨[eventC7], [⟨3, 7⟩], [⟨3, 5, .accepted⟩],
   [⟨30, 7, 3, 5, "first", .submitted, none, 0, false⟩]⟩

/-- A second submission attempt. -/
def payloadC7 : SubmissionPayload := ⟨"second try", "desc", none⟩

/-- A store like `stC7` but with no submissions yet. -/
def stC8 : Store := ⟨[eventC7], [⟨3, 7⟩], [⟨3, 5, .accepted⟩], []⟩

/-- A request body that explicitly asks for a draft. -/
def payloadDraftC8 : SubmissionPayload := ⟨"proj", "desc", some .draft⟩

/-- The row `createSubmission` produces from `payloadDraftC8` on `stC8`. -/
def rowC8 : SubmissionRow := ⟨40, 7, 3, 5, "proj", .submitted, none, 0, false⟩

/-- The store after that creation. -/
def stC8ok : Store := { stC8 with submissions := [rowC8] }

/-- An event (id 8) with no `submissionDeadline`, running from 0 to 1000. -/
def eventC9 : EventRow := ⟨8, 99, 0, 1000, none, [], false⟩

/-- A store containing `eventC9` with a team and an accepted member. -/
def stC9 : Store := ⟨[eventC9], [⟨3, 8⟩], [⟨3, 5, .accepted⟩], []⟩

/-- A well-formed submission attempt for event 9's team. -/
def payloadC9 : SubmissionPayload := ⟨"entry", "desc", none⟩

/-! ### Helper lemmas -/

/-- JS `(q || 0)` on a non-`NaN` number is the number itself. -/
theorem jsOr0_eq (q : ℚ) : jsOr0 q = q := by
  unfold jsOr0
  by_cases h : q = 0
  · simp [h]
  · simp [h]

/-- The score accumulation of `calculateScores` is the sum of the score
fields. -/
theorem foldl_add_score (l : List EvalRow) (a : ℚ) :
    l.foldl (fun sum e => sum + jsOr0 e.score) a = a + (l.map EvalRow.score).sum := by
  induction l generalizing a with
  | nil => simp
  | cons e t ih =>
    rw [List.foldl_cons, ih, jsOr0_eq]
    simp only [List.map_cons, List.sum_cons]
    ring

/-! ### C1: score aggregation -/

/-- C1.  After `recalculateScores` runs for a submission: with zero
non-deleted Evaluations the aggregate is `(null, 0)`; otherwise the average
is the arithmetic mean of the `score` fields of all its non-deleted
Evaluations — every round and every judge, nothing filtered by round — and
the count is the number of those Evaluations. -/
theorem recalculateScores_mean (evals : List EvalRow) (sid : Nat) :
    (submissionEvaluations evals sid = [] → recalculateScores evals sid = (none, 0)) ∧
    (submissionEvaluations evals sid ≠ [] →
      recalculateScores evals sid =
        (some (((submissionEvaluations evals sid).map EvalRow.score).sum /
               (submissionEvaluations evals sid).length),
         (submissionEvaluations evals sid).length)) := by
  constructor
  · intro h
    simp [recalculateScores, h, calculateScores]
  · intro h
    unfold recalculateScores calculateScores
    rw [if_neg (by simpa [List.length_eq_zero] using h)]
    simp [foldl_add_score]

/-- Witness for C1 on a table whose two live evaluations of submission 1
come from different judges in different rounds (plus one soft-deleted row
and one row of another submission): the aggregate is the mean 85 over
count 2. -/
theorem recalculateScores_mean_witness :
    (submissionEvaluations evalsC1 1 ≠ [] ∧
      recalculateScores evalsC1 1 =
        (some (((submissionEvaluations evalsC1 1).map EvalRow.score).sum /
               (submissionEvaluations evalsC1 1).length),
         (submissionEvaluations evalsC1 1).length)) ∧
    recalculateScores evalsC1 1 = (some 85, 2) :=
  ⟨⟨by decide, (recalculateScores_mean evalsC1 1).2 (by decide)⟩,
   by norm_num [recalculateScores, calculateScores, submissionEvaluations, evalsC1, jsOr0_eq]⟩

/-! ### C4: leaderboard rank computation -/

/-- C4 (code-bug evidence).  The rank expression `offset + index + 1` is
applied to the raw request-query `offset`.  With the default (numeric)
offset 0 the ranks are 1, 2, but when the client supplies `offset=2` the
query value is the string `"2"` and JS `+` concatenates: the two rows of
the second page get ranks `"201"` and `"211"` instead of 3 and 4.  Only a
numeric offset 2 would produce the claimed ranks 3, 4. -/
theorem leaderboard_rank_string_concat :
    (addRanks (JsVal.num 0) pageC4).map Prod.snd = [JsVal.num 1, JsVal.num 2] ∧
    (addRanks (JsVal.str "2") pageC4).map Prod.snd =
      [JsVal.str "201", JsVal.str "211"] ∧
    (addRanks (JsVal.num 2) pageC4).map Prod.snd = [JsVal.num 3, JsVal.num 4] ∧
    JsVal.str "201" ≠ JsVal.num 3 := by
  refine ⟨rfl, rfl, rfl, by decide⟩

/-! ### C6: fallback score is the raw sum -/

/-- C6.  When an evaluation is submitted without an explicit score
(`score` is `undefined`/`null`), the stored score is the raw sum of the
`criteriaScores` values — not an average and not rescaled. -/
theorem score_fallback_sum (criteria : List Criterion) (e : EvalInstance)
    (hdraft : e.status = EvalStatus.draft) (hnone : e.score = none)
    (hok : validateCriteria criteria e.criteriaScores = .ok ()) :
    evaluationSubmit criteria e =
      .ok { e with score := sumCriteriaScores e.criteriaScores,
                   status := EvalStatus.submitted } := by
  simp [evaluationSubmit, hdraft, hok, hnone, scoreFalsy]

/-- Witness for C6: two criteria with maxScore 10 each, scored 4 and 7 and
no explicit score, store the raw sum 11 (not the average 5.5 and not a
0-100 rescaling). -/
theorem score_fallback_sum_witness :
    (validateCriteria critC6 csC6 = .ok () ∧
      evaluationSubmit critC6 eC6 =
        .ok { eC6 with score := sumCriteriaScores csC6,
                       status := EvalStatus.submitted }) ∧
    sumCriteriaScores csC6 = some 11 :=
  ⟨⟨by decide, score_fallback_sum critC6 eC6 rfl rfl (by decide)⟩,
   by norm_num [sumCriteriaScores, csC6]⟩

/-! ### C10: an explicit zero score is overwritten -/

/-- C10.  `!this.score` is true for an explicitly supplied score of 0, so
the stored score of any evaluation whose score is falsy at submit time —
including a deliberate 0 — is overwritten with the sum of the
`criteriaScores` values. -/
theorem zero_score_overwritten (criteria : List Criterion) (e : EvalInstance)
    (hdraft : e.status = EvalStatus.draft) (hzero : e.score = some 0)
    (hok : validateCriteria criteria e.criteriaScores = .ok ()) :
    evaluationSubmit criteria e =
      .ok { e with score := sumCriteriaScores e.criteriaScores,
                   status := EvalStatus.submitted } := by
  simp [evaluationSubmit, hdraft, hok, hzero, scoreFalsy]

/-- Witness for C10: a judge submits score 0 with criterion score 5; the
stored score becomes 5, so the deliberate zero is not preserved. -/
theorem zero_score_overwritten_witness :
    (validateCriteria critC10 csC10 = .ok () ∧
      evaluationSubmit critC10 eC10 =
        .ok { eC10 with score := sumCriteriaScores csC10,
                        status := EvalStatus.submitted }) ∧
    sumCriteriaScores csC10 = some 5 ∧ eC10.score = some 0 ∧
    (some (5 : ℚ)) ≠ (some (0 : ℚ)) :=
  ⟨⟨by decide, zero_score_overwritten critC10 eC10 rfl rfl (by decide)⟩,
   by norm_num [sumCriteriaScores, csC10], rfl, by norm_num⟩

/-! ### C9: a null submission deadline closes the window -/

/-- C9.  For an event whose `submissionDeadline` is null,
`isSubmissionOpen()` returns false at every time, so `createSubmission`
always fails with the closed-window rejection — even while the event is
ongoing. -/
theorem no_deadline_submissions_closed (st : Store) (e : EventRow) (now : Int)
    (userId teamId newId : Nat) (payload : SubmissionPayload)
    (hdl : e.submissionDeadline = none) (hfind : findEvent st e.id = some e) :
    isSubmissionOpen e now = false ∧
    createSubmission st userId e.id teamId payload now newId =
      .error CreateError.eventClosed := by
  constructor
  · simp [isSubmissionOpen, hdl]
  · simp [createSubmission, hfind, isSubmissionOpen, hdl]

/-- Witness for C9: `eventC9` has no deadline; at time 100 it is ongoing
(start 0, end 1000), yet the window is closed and a creation attempt is
rejected. -/
theorem no_deadline_submissions_closed_witness :
    ((0 : Int) ≤ 100 ∧ (100 : Int) ≤ 1000) ∧
    (isSubmissionOpen eventC9 100 = false ∧
      createSubmission stC9 5 8 3 payloadC9 100 41 =
        .error CreateError.eventClosed) :=
  ⟨by decide,
   no_deadline_submissions_closed stC9 eventC9 100 5 3 41 payloadC9 rfl (by decide)⟩

/-! ### C5: criteria validation -/

/-- The validation loop succeeds exactly when every criterion id is present
with a numeric value in `[0, maxScore]`. -/
theorem validateCriteria_ok_iff (criteria : List Criterion) (cs : CriteriaScores) :
    validateCriteria criteria cs = .ok () ↔
      ∀ c ∈ criteria, ∃ q, cs.lookup c.id = some (some q) ∧ 0 ≤ q ∧ q ≤ c.maxScore := by
  induction criteria with
  | nil => simp [validateCriteria]
  | cons c rest ih =>
    rcases hl : cs.lookup c.id with _ | (_ | q)
    · simp [validateCriteria, hl]
    · simp [validateCriteria, hl]
    · simp only [validateCriteria, hl, List.forall_mem_cons]
      by_cases hq : q < 0 ∨ q > c.maxScore
      · rw [if_pos hq]
        constructor
        · intro h
          exact absurd h (by simp)
        · rintro ⟨⟨q2, hq2, h0, hmax⟩, -⟩
          injection hq2 with hq2
          injection hq2 with hq2
          subst hq2
          rcases hq with h | h
          · exact absurd h0 (not_le.mpr h)
          · exact absurd hmax (not_le.mpr h)
      · rw [if_neg hq]
        push_neg at hq
        rw [ih]
        constructor
        · intro h
          exact ⟨⟨q, rfl, hq.1, hq.2⟩, h⟩
        · exact fun h => h.2

/-- A failing validation names an offending criterion of the event: either
its id is missing from `criteriaScores`, or its stored value is non-numeric
or out of the `[0, maxScore]` range. -/
theorem validateCriteria_error_names (criteria : List Criterion) (cs : CriteriaScores)
    (err : SubmitError) (h : validateCriteria criteria cs = .error err) :
    ∃ c ∈ criteria,
      (err = SubmitError.missingCriterion c.name ∧ cs.lookup c.id = none) ∨
      (err = SubmitError.invalidCriterion c.name ∧
        ∀ q, cs.lookup c.id = some (some q) → (q < 0 ∨ q > c.maxScore)) := by
  induction criteria with
  | nil => simp [validateCriteria] at h
  | cons c rest ih =>
    rcases hl : cs.lookup c.id with _ | (_ | q)
    · simp only [validateCriteria, hl, Except.error.injEq] at h
      exact ⟨c, List.mem_cons_self c rest, Or.inl ⟨h.symm, hl⟩⟩
    · simp only [validateCriteria, hl, Except.error.injEq] at h
      refine ⟨c, List.mem_cons_self c rest, Or.inr ⟨h.symm, ?_⟩⟩
      intro q hq
      rw [hl] at hq
      cases hq
    · simp only [validateCriteria, hl] at h
      by_cases hq : q < 0 ∨ q > c.maxScore
      · rw [if_pos hq] at h
        simp only [Except.error.injEq] at h
        refine ⟨c, List.mem_cons_self c rest, Or.inr ⟨h.symm, ?_⟩⟩
        intro q2 hq2
        rw [hl] at hq2
        injection hq2 with hq2
        injection hq2 with hq2
        subst hq2
        exact hq
      · rw [if_neg hq] at h
        obtain ⟨c2, hc2, hres⟩ := ih h
        exact ⟨c2, List.mem_cons_of_mem c hc2, hres⟩

/-- C5.  For a not-yet-submitted evaluation, `Evaluation.prototype.submit`
succeeds iff every criterion of the event's `judgingCriteria` appears in
`criteriaScores` with a numeric value in `[0, maxScore]`; and every failure
of this validation names an offending criterion (its id missing, or its
value non-numeric or out of range). -/
theorem criteria_validation (criteria : List Criterion) (e : EvalInstance)
    (hdraft : e.status = EvalStatus.draft) :
    ((∃ e2, evaluationSubmit criteria e = .ok e2) ↔
       ∀ c ∈ criteria, ∃ q, e.criteriaScores.lookup c.id = some (some q) ∧
         0 ≤ q ∧ q ≤ c.maxScore) ∧
    (∀ err, evaluationSubmit criteria e = .error err →
       err ≠ SubmitError.alreadySubmitted ∧
       ∃ c ∈ criteria,
         (err = SubmitError.missingCriterion c.name ∧
            e.criteriaScores.lookup c.id = none) ∨
         (err = SubmitError.invalidCriterion c.name ∧
            ∀ q, e.criteriaScores.lookup c.id = some (some q) →
              (q < 0 ∨ q > c.maxScore))) := by
  have hst : (e.status == EvalStatus.submitted) = false := by simp [hdraft]
  constructor
  · rw [← validateCriteria_ok_iff]
    unfold evaluationSubmit
    rw [hst]
    simp only [Bool.false_eq_true, if_false]
    cases hv : validateCriteria criteria e.criteriaScores with
    | ok u =>
      cases u
      simp [hv]
    | error err2 => simp [hv]
  · intro err herr
    unfold evaluationSubmit at herr
    rw [hst] at herr
    simp only [Bool.false_eq_true, if_false] at herr
    cases hv : validateCriteria criteria e.criteriaScores with
    | ok u =>
      cases u
      rw [hv] at herr
      simp at herr
    | error err2 =>
      rw [hv] at herr
      simp only [Except.error.injEq] at herr
      subst herr
      obtain ⟨c, hc, hres⟩ := validateCriteria_error_names criteria e.criteriaScores err2 hv
      refine ⟨?_, ⟨c, hc, hres⟩⟩
      rcases hres with ⟨he, -⟩ | ⟨he, -⟩ <;> simp [he]

/-- Witness for C5 at the specification's example: one criterion `c1` with
maxScore 10, scored 11. -/
theorem criteria_validation_witness :
    ((∃ e2, evaluationSubmit critC5 eC5 = .ok e2) ↔
       ∀ c ∈ critC5, ∃ q, eC5.criteriaScores.lookup c.id = some (some q) ∧
         0 ≤ q ∧ q ≤ c.maxScore) ∧
    (∀ err, evaluationSubmit critC5 eC5 = .error err →
       err ≠ SubmitError.alreadySubmitted ∧
       ∃ c ∈ critC5,
         (err = SubmitError.missingCriterion c.name ∧
            eC5.criteriaScores.lookup c.id = none) ∨
         (err = SubmitError.invalidCriterion c.name ∧
            ∀ q, eC5.criteriaScores.lookup c.id = some (some q) →
              (q < 0 ∨ q > c.maxScore))) :=
  criteria_validation critC5 eC5 rfl

/-! ### C2: evaluation upsert -/

/-- Updating a row via the upsert writes the conflict-key columns, so the
updated row still matches the conflict key. -/
theorem matchesConflict_apply (v : EvalUpsertValues) (r : EvalRow) :
    matchesConflict v.submissionId v.judgeId (applyUpsertValues v r) = true := by
  simp [matchesConflict, applyUpsertValues]

/-- A freshly inserted row matches the conflict key. -/
theorem matchesConflict_insert (v : EvalUpsertValues) :
    matchesConflict v.submissionId v.judgeId (insertUpsertValues v) = true := by
  simp [matchesConflict, insertUpsertValues]

/-- Updating the rows selected by a predicate, by a function that keeps the
predicate true, preserves the number of selected rows. -/
theorem filter_update_length {α : Type} (p : α → Bool) (u : α → α)
    (hu : ∀ a, p a = true → p (u a) = true) (l : List α) :
    (List.filter p (l.map (fun r => if p r then u r else r))).length =
      (l.filter p).length := by
  induction l with
  | nil => rfl
  | cons a t ih =>
    cases hp : p a with
    | true => simp [hp, hu a hp, ih]
    | false => simp [hp, ih]

/-- When no row matches the conflict key, `upsertEvaluation` inserts. -/
theorem upsertEvaluation_insert_eq (table : List EvalRow) (v : EvalUpsertValues)
    (h : table.any (matchesConflict v.submissionId v.judgeId) = false) :
    upsertEvaluation table v = (table ++ [insertUpsertValues v], true) := by
  unfold upsertEvaluation
  rw [if_neg (by simp [h])]

/-- When a row matches the conflict key, `upsertEvaluation` updates. -/
theorem upsertEvaluation_update_eq (table : List EvalRow) (v : EvalUpsertValues)
    (h : table.any (matchesConflict v.submissionId v.judgeId) = true) :
    upsertEvaluation table v =
      (table.map (fun r =>
        if matchesConflict v.submissionId v.judgeId r then applyUpsertValues v r else r),
       false) := by
  unfold upsertEvaluation
  rw [if_pos h]

/-- One upsert leaves exactly one conflict-key row when there was none, and
otherwise exactly as many as before. -/
theorem judgeRows_upsert_length (table : List EvalRow) (v : EvalUpsertValues) :
    (judgeRows (upsertEvaluation table v).1 v.submissionId v.judgeId).length =
      if (judgeRows table v.submissionId v.judgeId).length = 0 then 1
      else (judgeRows table v.submissionId v.judgeId).length := by
  cases hany : table.any (matchesConflict v.submissionId v.judgeId) with
  | false =>
    have hall : ∀ x ∈ table, matchesConflict v.submissionId v.judgeId x = false := by
      simpa using hany
    have hfil : table.filter (matchesConflict v.submissionId v.judgeId) = [] := by
      rw [List.filter_eq_nil_iff]
      intro a ha
      simp [hall a ha]
    rw [upsertEvaluation_insert_eq table v hany]
    unfold judgeRows
    simp [hfil, List.filter_append, matchesConflict_insert]
  | true =>
    have hne : (judgeRows table v.submissionId v.judgeId).length ≠ 0 := by
      obtain ⟨a, ha, hpa⟩ := List.any_eq_true.mp hany
      have hmem : a ∈ judgeRows table v.submissionId v.judgeId :=
        List.mem_filter.mpr ⟨ha, hpa⟩
      simp only [ne_eq, List.length_eq_zero]
      exact fun hnil => by simp [hnil] at hmem
    rw [upsertEvaluation_update_eq table v hany, if_neg hne]
    exact filter_update_length (matchesConflict v.submissionId v.judgeId) _
      (fun a _ => matchesConflict_apply _ a) table

/-- After an upsert, every conflict-key row carries the written values. -/
theorem judgeRows_upsert_fields (table : List EvalRow) (v : EvalUpsertValues) :
    ∀ r ∈ judgeRows (upsertEvaluation table v).1 v.submissionId v.judgeId,
      r.score = v.score ∧ r.feedback = v.feedback ∧ r.status = v.status := by
  intro r hr
  cases hany : table.any (matchesConflict v.submissionId v.judgeId) with
  | true =>
    rw [upsertEvaluation_update_eq table v hany] at hr
    obtain ⟨hmem, hp⟩ := List.mem_filter.mp hr
    obtain ⟨r0, hr0, heq⟩ := List.mem_map.mp hmem
    cases hp0 : matchesConflict v.submissionId v.judgeId r0 with
    | true =>
      rw [hp0, if_pos rfl] at heq
      subst heq
      simp [applyUpsertValues]
    | false =>
      rw [hp0] at heq
      simp at heq
      subst heq
      rw [hp0] at hp
      cases hp
  | false =>
    rw [upsertEvaluation_insert_eq table v hany] at hr
    obtain ⟨hmem, hp⟩ := List.mem_filter.mp hr
    rcases List.mem_append.mp hmem with hin | hin
    · have hall : ∀ x ∈ table, matchesConflict v.submissionId v.judgeId x = false := by
        simpa using hany
      rw [hall r hin] at hp
      cases hp
    · simp only [List.mem_singleton] at hin
      subst hin
      simp [insertUpsertValues]

/-- One `submitEvaluation` write leaves exactly one judge row when there was
none, and otherwise exactly as many as before. -/
theorem judgeRows_write_length (table : List EvalRow) (sid jid : Nat) (score : ℚ)
    (fb : Option String) (cs : CriteriaScores) :
    (judgeRows (submitEvaluationWrite table sid jid score fb cs).1 sid jid).length =
      if (judgeRows table sid jid).length = 0 then 1
      else (judgeRows table sid jid).length :=
  judgeRows_upsert_length table
    { submissionId := sid, judgeId := jid, score := score, feedback := fb,
      criteria := cs, status := EvalStatus.submitted }

/-- After a `submitEvaluation` write, every row for the judge and the
submission carries the payload of that write. -/
theorem judgeRows_write_fields (table : List EvalRow) (sid jid : Nat) (score : ℚ)
    (fb : Option String) (cs : CriteriaScores) :
    ∀ r ∈ judgeRows (submitEvaluationWrite table sid jid score fb cs).1 sid jid,
      r.score = score ∧ r.feedback = fb ∧ r.status = EvalStatus.submitted :=
  judgeRows_upsert_fields table
    { submissionId := sid, judgeId := jid, score := score, feedback := fb,
      criteria := cs, status := EvalStatus.submitted }

/-- Any sequence of `submitEvaluation` writes keeps the judge-row count at
most one. -/
theorem judgeRows_calls_le_one (sid jid : Nat)
    (calls : List (ℚ × Option String × CriteriaScores)) :
    ∀ table : List EvalRow, (judgeRows table sid jid).length ≤ 1 →
      (judgeRows (submitEvaluationCalls table sid jid calls) sid jid).length ≤ 1 := by
  induction calls with
  | nil => exact fun table h => h
  | cons c t ih =>
    intro table h
    have hstep :
        (judgeRows (submitEvaluationWrite table sid jid c.1 c.2.1 c.2.2).1 sid jid).length ≤ 1 := by
      rw [judgeRows_write_length]
      split <;> omega
    exact ih _ hstep

/-- C2 counterexample.  One `submitEvaluation` call whose payload carries
the criteria scores `{c1: 5}` leaves a single Evaluation row whose
`criteriaScores` is the empty object (and whose `round` is the default 1):
the controller's `criteria` field is not an attribute of the Evaluation
model, so the stored criteria scores do not equal the payload. -/
theorem submitEvaluation_drops_criteriaScores :
    ((submitEvaluationWrite [] 1 9 90 (some "good") [("c1", some 5)]).1).map
        EvalRow.criteriaScores = [[]] ∧
    ((submitEvaluationWrite [] 1 9 90 (some "good") [("c1", some 5)]).1).map
        EvalRow.round = [1] ∧
    ([] : CriteriaScores) ≠ [("c1", some 5)] := by
  refine ⟨rfl, rfl, by decide⟩

/-- C2 amended.  Starting from a table holding at most one Evaluation row
for judge J and submission S, any non-empty sequence of `submitEvaluation`
calls by J for S (written `init ++ [last]`) leaves exactly one row for
(S, J) — the upsert conflicts on `(submissionId, judgeId)`; `round` is not
part of the key and is never sent — and that row's score, feedback and
status equal the last call's payload (its `criteriaScores` is not taken
from the payload). -/
theorem submitEvaluation_single_row (table : List EvalRow) (sid jid : Nat)
    (init : List (ℚ × Option String × CriteriaScores))
    (last : ℚ × Option String × CriteriaScores)
    (hone : (judgeRows table sid jid).length ≤ 1) :
    (judgeRows (submitEvaluationCalls table sid jid (init ++ [last])) sid jid).length = 1 ∧
    ∀ r ∈ judgeRows (submitEvaluationCalls table sid jid (init ++ [last])) sid jid,
      r.score = last.1 ∧ r.feedback = last.2.1 ∧ r.status = EvalStatus.submitted := by
  have hfold := judgeRows_calls_le_one sid jid init table hone
  have hsplit :
      submitEvaluationCalls table sid jid (init ++ [last]) =
        (submitEvaluationWrite (submitEvaluationCalls table sid jid init) sid jid
          last.1 last.2.1 last.2.2).1 := by
    unfold submitEvaluationCalls
    rw [List.foldl_append]
    rfl
  rw [hsplit]
  constructor
  · rw [judgeRows_write_length]
    split <;> omega
  · exact judgeRows_write_fields _ sid jid last.1 last.2.1 last.2.2

/-- Witness for C2 amended: two calls by judge 2 on submission 1 starting
from the empty table leave one row carrying the second call's score 90 and
feedback. -/
theorem submitEvaluation_single_row_witness :
    (judgeRows (submitEvaluationCalls [] 1 2 callsC2) 1 2).length = 1 ∧
    ∀ r ∈ judgeRows (submitEvaluationCalls [] 1 2 callsC2) 1 2,
      r.score = 90 ∧ r.feedback = some "second" ∧ r.status = EvalStatus.submitted := by
  have h := submitEvaluation_single_row [] 1 2 [(80, some "first", [("c1", some 3)])]
    (90, some "second", []) (by decide)
  simpa [callsC2] using h

/-! ### C3: leaderboard scope and ordering -/

/-- On the example data, the leaderboard page is [B, A, D, C]. -/
theorem leaderboardC3_eq :
    getLeaderboard subsC3 evalsC3 7 10 0 =
      [⟨2, "B", some 90, 5⟩, ⟨1, "A", some 90, 2⟩,
       ⟨4, "D", some 75, 1⟩, ⟨3, "C", none, 0⟩] := by
  have hentries :
      (subsC3.filter (fun s =>
        s.eventId == 7 && s.status == SubStatus.submitted && !s.deleted)).map
          (leaderboardAggregate evalsC3) =
        [⟨1, "A", some 90, 2⟩, ⟨2, "B", some 90, 5⟩,
         ⟨3, "C", none, 0⟩, ⟨4, "D", some 75, 1⟩] := by
    norm_num [subsC3, evalsC3, leaderboardAggregate, submissionEvaluations,
      LeaderboardEntry.mk.injEq]
  have hsort :
      List.insertionSort LbBefore
        [(⟨1, "A", some 90, 2⟩ : LeaderboardEntry), ⟨2, "B", some 90, 5⟩,
         ⟨3, "C", none, 0⟩, ⟨4, "D", some 75, 1⟩] =
        [⟨2, "B", some 90, 5⟩, ⟨1, "A", some 90, 2⟩,
         ⟨4, "D", some 75, 1⟩, ⟨3, "C", none, 0⟩] := by
    decide
  simp only [getLeaderboard]
  rw [hentries, hsort]
  rfl

/-- C3.  `getLeaderboard` returns only the event's non-deleted submissions
with status `submitted` (each paired with its aggregates), the returned
page is ordered by `averageScore DESC NULLS LAST` with ties broken by
`evaluationCount DESC`, and on the example A(90, 2), B(90, 5), C(null, 0),
D(75, 1) the order is [B, A, D, C]. -/
theorem getLeaderboard_ordering (subs : List SubmissionRow) (evals : List EvalRow)
    (ev limit offset : Nat) :
    (∀ e ∈ getLeaderboard subs evals ev limit offset,
       ∃ s ∈ subs, s.eventId = ev ∧ s.status = SubStatus.submitted ∧
         s.deleted = false ∧ e = leaderboardAggregate evals s) ∧
    (getLeaderboard subs evals ev limit offset).Sorted LbBefore ∧
    (getLeaderboard subsC3 evalsC3 7 10 0).map LeaderboardEntry.id = [2, 1, 4, 3] := by
  have hsub :
      ∀ (l : List LeaderboardEntry) (n m : Nat), List.Sublist ((l.drop n).take m) l :=
    fun l n m => (List.take_sublist _ _).trans (List.drop_sublist _ _)
  refine ⟨?_, ?_, ?_⟩
  · intro e he
    unfold getLeaderboard at he
    have h1 : e ∈ List.insertionSort LbBefore
        ((subs.filter (fun s =>
          s.eventId == ev && s.status == SubStatus.submitted && !s.deleted)).map
            (leaderboardAggregate evals)) :=
      (hsub _ _ _).subset he
    rw [List.mem_insertionSort] at h1
    obtain ⟨s, hsf, heq⟩ := List.mem_map.mp h1
    obtain ⟨hsin, hpred⟩ := List.mem_filter.mp hsf
    simp only [Bool.and_eq_true, beq_iff_eq, Bool.not_eq_true'] at hpred
    exact ⟨s, hsin, hpred.1.1, hpred.1.2, hpred.2, heq.symm⟩
  · unfold getLeaderboard
    exact List.Pairwise.sublist (hsub _ _ _)
      (List.sorted_insertionSort LbBefore _)
  · rw [leaderboardC3_eq]
    rfl

/-- Witness for C3: the top entry of the example leaderboard, B with
average 90 over 5 evaluations, comes from a submitted, non-deleted
submission of event 7. -/
theorem getLeaderboard_ordering_witness :
    ∃ s ∈ subsC3, s.eventId = 7 ∧ s.status = SubStatus.submitted ∧
      s.deleted = false ∧ entryB = leaderboardAggregate evalsC3 s :=
  (getLeaderboard_ordering subsC3 evalsC3 7 10 0).1 entryB
    (by rw [leaderboardC3_eq, entryB]; exact List.mem_cons_self _ _)

/-! ### C7: at most one non-draft submission per team and event -/

/-- No matching non-draft submission means a zero non-draft count. -/
theorem nonDraftCount_eq_zero (subs : List SubmissionRow) (teamId eventId : Nat)
    (h : hasNonDraftSubmission subs teamId eventId = false) :
    nonDraftCount subs teamId eventId = 0 := by
  unfold hasNonDraftSubmission at h
  have hall := (by simpa using h :
    ∀ x ∈ subs,
      ¬(x.teamId == teamId && x.eventId == eventId &&
        !(x.status == SubStatus.draft) && !x.deleted) = true)
  unfold nonDraftCount
  rw [List.length_eq_zero, List.filter_eq_nil_iff]
  exact fun a ha => hall a ha

/-- C7.  While a team holds a non-draft submission for an event, any
further `createSubmission` attempt for the pair by an accepted team member
(with the event found and its window open) is rejected with the
already-submitted conflict and leaves the store unchanged; and every
`createSubmission` call preserves the invariant that at most one non-draft
submission exists per `(teamId, eventId)`. -/
theorem single_nonDraft_submission (st : Store) (userId eventId teamId newId : Nat)
    (payload : SubmissionPayload) (now : Int) :
    ((∃ ev, findEvent st eventId = some ev ∧ isSubmissionOpen ev now = true) →
      teamWithMember st teamId userId = true →
      hasNonDraftSubmission st.submissions teamId eventId = true →
      (createSubmission st userId eventId teamId payload now newId =
          .error CreateError.alreadySubmitted ∧
        createSubmissionStore st userId eventId teamId payload now newId = st)) ∧
    (nonDraftCount st.submissions teamId eventId ≤ 1 →
      nonDraftCount
        (createSubmissionStore st userId eventId teamId payload now newId).submissions
        teamId eventId ≤ 1) := by
  constructor
  · rintro ⟨ev, hf, hopen⟩ hmem hdup
    have hcreate : createSubmission st userId eventId teamId payload now newId =
        .error CreateError.alreadySubmitted := by
      simp [createSubmission, hf, hopen, hmem, hdup]
    exact ⟨hcreate, by simp [createSubmissionStore, hcreate]⟩
  · intro hle
    unfold createSubmissionStore
    cases hc : createSubmission st userId eventId teamId payload now newId with
    | error e => exact hle
    | ok p =>
      show nonDraftCount p.1.submissions teamId eventId ≤ 1
      unfold createSubmission at hc
      split at hc
      · exact absurd hc (by simp)
      · split at hc
        · exact absurd hc (by simp)
        · split at hc
          · exact absurd hc (by simp)
          · split at hc
            · exact absurd hc (by simp)
            · next hdup =>
              have hdup2 : hasNonDraftSubmission st.submissions teamId eventId = false := by
                simpa using hdup
              simp only [Except.ok.injEq] at hc
              rw [← hc]
              unfold nonDraftCount
              rw [List.filter_append, List.length_append]
              have h0 := nonDraftCount_eq_zero st.submissions teamId eventId hdup2
              unfold nonDraftCount at h0
              rw [h0]
              simpa using List.length_filter_le _ _

/-- Witness for C7: in `stC7` team 3 already holds a non-draft submission
for event 7; a second attempt by accepted member 5 while the window is open
is rejected and the store is unchanged. -/
theorem single_nonDraft_submission_witness :
    createSubmission stC7 5 7 3 payloadC7 100 40 =
        .error CreateError.alreadySubmitted ∧
      createSubmissionStore stC7 5 7 3 payloadC7 100 40 = stC7 :=
  (single_nonDraft_submission stC7 5 7 3 40 payloadC7 100).1
    ⟨eventC7, by decide, by decide⟩ (by decide) (by decide)

/-! ### C8: status of a created submission -/

/-- C8 counterexample.  A caller who explicitly asks for a draft
(`payloadDraftC8.status = some draft`) on a store with no prior submission
still gets a Submission with status `submitted`: the controller never reads
a requested status, so the claimed draft case does not occur. -/
theorem draft_request_not_honored :
    payloadDraftC8.status = some SubStatus.draft ∧
    stC8.submissions = [] ∧
    createdStatus stC8 5 7 3 payloadDraftC8 100 40 = some SubStatus.submitted ∧
    SubStatus.submitted ≠ SubStatus.draft := by
  refine ⟨rfl, rfl, by decide, by decide⟩

/-- C8 amended.  Every successful `createSubmission` yields a Submission in
status `submitted` — the controller always writes `status: 'submitted'` and
never reads a requested status from the payload.  At the model layer the
`beforeCreate` hook leaves a created row in status `draft` exactly when the
row was created as a draft AND the team already has at least one prior
(non-deleted) submission for the event — the opposite of the claimed
"no prior submission exists" condition. -/
theorem createSubmission_status_always_submitted (st : Store)
    (userId eventId teamId newId : Nat) (payload : SubmissionPayload) (now : Int)
    (subs : List SubmissionRow) (s : SubmissionRow) :
    (∀ st2 row, createSubmission st userId eventId teamId payload now newId =
        .ok (st2, row) → row.status = SubStatus.submitted) ∧
    ((submissionBeforeCreate subs s).status = SubStatus.draft ↔
      (s.status = SubStatus.draft ∧
        (subs.filter (fun r =>
          r.teamId == s.teamId && r.eventId == s.eventId && !r.deleted)).length ≠ 0)) := by
  constructor
  · intro st2 row hc
    unfold createSubmission at hc
    split at hc
    · exact absurd hc (by simp)
    · split at hc
      · exact absurd hc (by simp)
      · split at hc
        · exact absurd hc (by simp)
        · split at hc
          · exact absurd hc (by simp)
          · simp only [Except.ok.injEq, Prod.mk.injEq] at hc
            rw [← hc.2]
            simp [submissionBeforeCreate]
  · unfold submissionBeforeCreate
    by_cases hs : s.status = SubStatus.draft
    · rw [if_pos (by simp [hs])]
      by_cases hc0 : (subs.filter (fun r =>
          r.teamId == s.teamId && r.eventId == s.eventId && !r.deleted)).length = 0
      · rw [if_pos (by simp [hc0])]
        simp [hs, hc0]
      · rw [if_neg (by simp [hc0])]
        simp [hs, hc0]
    · rw [if_neg (by simp [hs])]
      simp [hs]

/-- Witness for C8 amended: the concrete successful creation from
`payloadDraftC8` on `stC8` produces `rowC8`, whose status is `submitted`. -/
theorem createSubmission_status_always_submitted_witness :
    rowC8.status = SubStatus.submitted :=
  (createSubmission_status_always_submitted stC8 5 7 3 40 payloadDraftC8 100 [] rowC8).1
    stC8ok rowC8 (by decide)

end SynapEvents
